import Mathlib

/-!
Verification of the vote-state machine and message/notification pipeline of
the freelancer-forum backend.  Definitions transcribe the JavaScript
controllers (`threadController.voteThread`, `commentController.voteComment` /
`createComment` / `deleteComment`, `messageController.sendMessage` /
`deleteMessage`); user ids are modelled as `Nat`, Mongo documents as Lean
structures, and the awaited `Notification.create` calls as list appends.
-/

namespace Forum
/-- Vote direction, the `voteType` field: `'up'` or `'down'`. -/
inductive VoteDir where
  | up
  | down
deriving DecidableEq, Repr

/-- One element of the `votedBy` array: `{ user, voteType }`. -/
structure VoteRecord where
  user : Nat
  voteType : VoteDir
deriving DecidableEq, Repr

/-- A persisted notification document (the fields the claims need:
recipient `userId`, the `type` string, and `data.fromUserId`). -/
structure Notification where
  userId : Nat
  ntype : String
  fromUserId : Nat
deriving DecidableEq, Repr

/-- A votable entity (Thread or Comment): owner (`createdBy` / `userId`),
the denormalized `upvotes` / `downvotes` counters and the `votedBy` array.
Counters are `Int` because the JS code freely decrements them. -/
structure Votable where
  ownerId : Nat
  upvotes : Int
  downvotes : Int
  votedBy : List VoteRecord
deriving DecidableEq, Repr

/-- In-place mutation of the first list element satisfying `p`
(the JS `existingVote.voteType = voteType` assignment). -/
def updateFirst (p : α → Bool) (f : α → α) : List α → List α
  | [] => []
  | x :: xs => if p x then f x :: xs else x :: updateFirst p f xs

/-- The vote branch shared verbatim by `voteThread` and `voteComment`:
look up the actor's existing vote; same direction ⇒ remove record and
decrement that counter; opposite ⇒ flip the record, increment new counter,
decrement old; no prior vote ⇒ push a record, increment the counter, and
(only for a first-time upvote by someone other than the owner) create a
`<kind>_upvote` notification.  Returns the updated entity and the list of
notifications created. -/
def applyVote (e : Votable) (actorId : Nat) (voteType : VoteDir) (kind : String) :
    Votable × List Notification :=
  match e.votedBy.find? (fun v => v.user == actorId) with
  | some existingVote =>
    if existingVote.voteType == voteType then
      let vb := e.votedBy.filter (fun v => v.user != actorId)
      match voteType with
      | .up => ({ e with votedBy := vb, upvotes := e.upvotes - 1 }, [])
      | .down => ({ e with votedBy := vb, downvotes := e.downvotes - 1 }, [])
    else
      let vb := updateFirst (fun v => v.user == actorId)
                  (fun v => { v with voteType := voteType }) e.votedBy
      match voteType with
      | .up => ({ e with votedBy := vb, upvotes := e.upvotes + 1,
                         downvotes := e.downvotes - 1 }, [])
      | .down => ({ e with votedBy := vb, upvotes := e.upvotes - 1,
                           downvotes := e.downvotes + 1 }, [])
  | none =>
    let vb := e.votedBy ++ [⟨actorId, voteType⟩]
    let e1 : Votable :=
      match voteType with
      | .up => { e with votedBy := vb, upvotes := e.upvotes + 1 }
      | .down => { e with votedBy := vb, downvotes := e.downvotes + 1 }
    let notifs : List Notification :=
      if voteType == .up && e.ownerId != actorId then
        [⟨e.ownerId, kind ++ "_upvote", actorId⟩]
      else []
    (e1, notifs)

/-- Number of `up` records in a `votedBy` array. -/
def upCount (l : List VoteRecord) : Nat :=
  (l.filter (fun v => v.voteType == VoteDir.up)).length

/-- Number of `down` records in a `votedBy` array. -/
def downCount (l : List VoteRecord) : Nat :=
  (l.filter (fun v => v.voteType == VoteDir.down)).length

/-- The cached-counter invariant: each counter equals the number of matching
vote records, and no user appears twice in `votedBy`. -/
def voteInvariant (e : Votable) : Prop :=
  e.upvotes = (upCount e.votedBy : Int) ∧
  e.downvotes = (downCount e.votedBy : Int) ∧
  (e.votedBy.map VoteRecord.user).Nodup

instance (e : Votable) : Decidable (voteInvariant e) := by
  unfold voteInvariant; infer_instance

/-- A thread document: the fields `createComment`/`deleteComment` read
(`createdBy`, `isLocked`, the cached `commentsCount`). -/
structure Thread where
  id : Nat
  createdBy : Nat
  isLocked : Bool
  commentsCount : Int
deriving DecidableEq, Repr

/-- A comment document. -/
structure CommentRec where
  id : Nat
  threadId : Nat
  userId : Nat
  parentId : Option Nat
  mentions : List Nat
deriving DecidableEq, Repr

/-- The persistent stores touched by the comment controller. -/
structure ForumState where
  threads : List Thread
  comments : List CommentRec
  userIds : List Nat
  notifications : List Notification
  nextCommentId : Nat
deriving DecidableEq, Repr

inductive CreateCommentResult where
  | threadNotFound
  | threadLocked
  | parentNotFound
  | created (c : CommentRec)
deriving DecidableEq, Repr

/-- The mention loop of `createComment`: for each element of `mentions`
(in order, without deduplication) that is not the actor and refers to an
existing user, create one `comment_mention` notification; other ids are
skipped silently. -/
def mentionNotifs (userIds : List Nat) (actorId : Nat) (mentions : List Nat) :
    List Notification :=
  (mentions.filter (fun m => m != actorId && userIds.contains m)).map
    (fun m => ⟨m, "comment_mention", actorId⟩)

/-- The comment-reply notification block of `createComment`: a top-level
comment notifies the thread owner; a nested comment re-fetches the parent
comment from the (post-insert) store and notifies its owner; self-replies
are suppressed in both branches. -/
def replyNotifList (thread : Thread) (comments1 : List CommentRec)
    (actorId : Nat) (parentId : Option Nat) : List Notification :=
  match parentId with
  | none =>
    if thread.createdBy ≠ actorId then
      [⟨thread.createdBy, "thread_reply", actorId⟩]
    else []
  | some pid =>
    match comments1.find? (fun c => c.id == pid) with
    | some parentComment =>
      if parentComment.userId ≠ actorId then
        [⟨parentComment.userId, "comment_reply", actorId⟩]
      else []
    | none => []

/-- `createComment`: find the thread (404 if absent), reject if locked (403),
check the parent comment exists when `parentId` is given (404), create the
comment, `$inc` the thread's `commentsCount`, then create notifications:
the reply block (`replyNotifList`) followed by the mention loop
(`mentionNotifs`). -/
def createComment (st : ForumState) (actorId threadId : Nat)
    (parentId : Option Nat) (mentions : List Nat) :
    CreateCommentResult × ForumState :=
  match st.threads.find? (fun t => t.id == threadId) with
  | none => (.threadNotFound, st)
  | some thread =>
    if thread.isLocked then (.threadLocked, st)
    else if parentId.isSome &&
        (st.comments.find? (fun c => some c.id == parentId)).isNone then
      (.parentNotFound, st)
    else
      let comment : CommentRec :=
        ⟨st.nextCommentId, threadId, actorId, parentId, mentions⟩
      let comments1 := st.comments ++ [comment]
      let threads1 := st.threads.map (fun t =>
        if t.id == threadId then { t with commentsCount := t.commentsCount + 1 }
        else t)
      (.created comment,
       { st with
          comments := comments1,
          threads := threads1,
          notifications := st.notifications ++
            replyNotifList thread comments1 actorId parentId ++
            mentionNotifs st.userIds actorId mentions,
          nextCommentId := st.nextCommentId + 1 })

inductive DeleteCommentResult where
  | notFound
  | forbidden
  | deleted
deriving DecidableEq, Repr

/-- `deleteComment`: find the comment (404), check ownership (403), delete
all direct replies (`deleteMany {parentId}`), then count the remaining
replies — which is always zero because they were just deleted — and `$inc`
the thread's `commentsCount` by `-(replyCount + 1)`, and finally delete the
comment itself. -/
def deleteComment (st : ForumState) (actorId commentId : Nat) :
    DeleteCommentResult × ForumState :=
  match st.comments.find? (fun c => c.id == commentId) with
  | none => (.notFound, st)
  | some comment =>
    if comment.userId ≠ actorId then (.forbidden, st)
    else
      let comments1 := st.comments.filter (fun c => !(c.parentId == some comment.id))
      let replyCount := (comments1.filter (fun c => c.parentId == some comment.id)).length
      let threads1 := st.threads.map (fun t =>
        if t.id == comment.threadId then
          { t with commentsCount := t.commentsCount - (replyCount + 1) }
        else t)
      let comments2 := comments1.filter (fun c => !(c.id == comment.id))
      (.deleted, { st with comments := comments2, threads := threads1 })

/-- A user document, reduced to the fields `sendMessage` reads: id and the
`notificationPrefs.chat` flag. -/
structure UserRec where
  id : Nat
  chatPref : Bool
deriving DecidableEq, Repr

/-- A message document. -/
structure MessageRec where
  id : Nat
  sender : Nat
  receiver : Nat
  content : String
  isDeleted : Bool
  deletedBy : List Nat
deriving DecidableEq, Repr

/-- The persistent stores touched by the message controller. -/
structure MsgState where
  users : List UserRec
  messages : List MessageRec
  notifications : List Notification
  nextMessageId : Nat
deriving DecidableEq, Repr

inductive SendMessageResult where
  | receiverNotFound
  | receiverDisabled
  | notifCreateThrew
  | created (m : MessageRec)
deriving DecidableEq, Repr

/-- `sendMessage`: look up the receiver (404 if absent), reject if
`notificationPrefs.chat` is disabled (403), persist the Message, then
`await Notification.create` — which has no try/catch around it, so the flag
`notifCreateFails` models that call throwing: the handler aborts before the
201 response (the error propagates through `asyncHandler`), while the
already-persisted message stays in the store.  Note there is no check that
the receiver differs from the sender. -/
def sendMessage (st : MsgState) (senderId receiverId : Nat) (content : String)
    (notifCreateFails : Bool) : SendMessageResult × MsgState :=
  match st.users.find? (fun u => u.id == receiverId) with
  | none => (.receiverNotFound, st)
  | some receiver =>
    if !receiver.chatPref then (.receiverDisabled, st)
    else
      let message : MessageRec :=
        ⟨st.nextMessageId, senderId, receiverId, content, false, []⟩
      let st1 := { st with messages := st.messages ++ [message],
                           nextMessageId := st.nextMessageId + 1 }
      if notifCreateFails then (.notifCreateThrew, st1)
      else
        let st2 := { st1 with notifications := st1.notifications ++
          [⟨receiverId, "new_message", senderId⟩] }
        (.created message, st2)

inductive DeleteMessageResult where
  | notFound
  | notAuthorized
  | deleted (m : MessageRec)
deriving DecidableEq, Repr

/-- `deleteMessage` on a single message document: reject callers that are
neither sender nor receiver (403); add the caller to `deletedBy` unless
already present; set `isDeleted` when `deletedBy` reaches length 2.  The
document itself is never removed from the store — only mutated and saved. -/
def deleteMessage (m : MessageRec) (userId : Nat) : DeleteMessageResult :=
  if m.sender != userId && m.receiver != userId then .notAuthorized
  else
    let db := if m.deletedBy.contains userId then m.deletedBy
              else m.deletedBy ++ [userId]
    let m1 := { m with deletedBy := db }
    .deleted (if db.length == 2 then { m1 with isDeleted := true } else m1)

/-- Invariant of a message document under `deleteMessage`: deletion marks are
unique, only the two parties can mark, and the message is inert (`isDeleted`)
exactly when both parties have marked. -/
def msgInvariant (m : MessageRec) : Prop :=
  m.deletedBy.Nodup ∧
  (∀ u ∈ m.deletedBy, u = m.sender ∨ u = m.receiver) ∧
  (m.isDeleted = true ↔ (m.sender ∈ m.deletedBy ∧ m.receiver ∈ m.deletedBy))

instance (m : MessageRec) : Decidable (msgInvariant m) := by
  unfold msgInvariant; infer_instance

example :
    applyVote ⟨5, 0, 0, []⟩ 9 .up "thread" =
      (⟨5, 1, 0, [⟨9, .up⟩]⟩, [⟨5, "thread_upvote", 9⟩]) := by
  decide

example :
    applyVote ⟨5, 1, 0, [⟨9, .up⟩]⟩ 9 .up "thread" =
      (⟨5, 0, 0, []⟩, []) := by
  decide

example :
    applyVote ⟨5, 1, 0, [⟨9, .up⟩]⟩ 9 .down "thread" =
      (⟨5, 0, 1, [⟨9, .down⟩]⟩, []) := by
  decide

example : applyVote ⟨5, 0, 0, []⟩ 5 .up "thread" = (⟨5, 1, 0, [⟨5, .up⟩]⟩, []) := by
  decide

theorem upCount_append (l₁ l₂ : List VoteRecord) :
    upCount (l₁ ++ l₂) = upCount l₁ + upCount l₂ := by
  simp [upCount, List.filter_append]

theorem downCount_append (l₁ l₂ : List VoteRecord) :
    downCount (l₁ ++ l₂) = downCount l₁ + downCount l₂ := by
  simp [downCount, List.filter_append]

theorem upCount_cons (x : VoteRecord) (xs : List VoteRecord) :
    upCount (x :: xs) = (if x.voteType = .up then 1 else 0) + upCount xs := by
  by_cases h : x.voteType = VoteDir.up <;>
    simp [upCount, List.filter_cons, h, Nat.add_comm]

theorem downCount_cons (x : VoteRecord) (xs : List VoteRecord) :
    downCount (x :: xs) = (if x.voteType = .down then 1 else 0) + downCount xs := by
  by_cases h : x.voteType = VoteDir.down <;>
    simp [downCount, List.filter_cons, h, Nat.add_comm]

/-- Removing the (unique) record of user `a` from a duplicate-free `votedBy`
array subtracts that record's contribution from each counter. -/
theorem counts_filter_erase (a : Nat) :
    ∀ (l : List VoteRecord) (ex : VoteRecord),
      l.find? (fun v => v.user == a) = some ex →
      (l.map VoteRecord.user).Nodup →
      upCount l = upCount (l.filter (fun v => v.user != a)) +
          (if ex.voteType = .up then 1 else 0) ∧
      downCount l = downCount (l.filter (fun v => v.user != a)) +
          (if ex.voteType = .down then 1 else 0)
  | [], ex, hf, _ => by simp at hf
  | x :: xs, ex, hf, hnd => by
    by_cases hx : x.user = a
    · have hex : ex = x := by
        rw [List.find?_cons_of_pos _ (by simp [hx])] at hf
        exact (Option.some_injective _ hf).symm
      have hxs : ∀ y ∈ xs, y.user ≠ a := by
        have h1 : x.user ∉ xs.map VoteRecord.user := by
          rw [List.map_cons] at hnd
          exact (List.nodup_cons.mp hnd).1
        intro y hy hya
        exact h1 (by rw [hx, ← hya]; exact List.mem_map_of_mem _ hy)
      have hfilter : xs.filter (fun v => v.user != a) = xs :=
        List.filter_eq_self.mpr (fun y hy => by simpa using hxs y hy)
      subst hex
      simp only [List.filter_cons, hx]
      rw [upCount_cons, downCount_cons]
      simp [hfilter, hx]
      constructor <;> omega
    · have hf' : xs.find? (fun v => v.user == a) = some ex := by
        rwa [List.find?_cons_of_neg _ (by simp [hx])] at hf
      have hnd' : (xs.map VoteRecord.user).Nodup :=
        (List.nodup_cons.mp (by simpa using hnd)).2
      obtain ⟨ih1, ih2⟩ := counts_filter_erase a xs ex hf' hnd'
      simp only [List.filter_cons]
      have hkeep : (x.user != a) = true := by simp [hx]
      rw [hkeep]
      simp only [if_true]
      rw [upCount_cons, downCount_cons, upCount_cons, downCount_cons]
      omega

/-- Flipping the first record of user `a` to direction `d` leaves the users
of the array unchanged. -/
theorem updateFirst_map_user (a : Nat) (d : VoteDir) :
    ∀ l : List VoteRecord,
      (updateFirst (fun v => v.user == a) (fun v => { v with voteType := d }) l).map
          VoteRecord.user = l.map VoteRecord.user
  | [] => rfl
  | x :: xs => by
    by_cases hx : x.user = a <;>
      simp [updateFirst, hx, updateFirst_map_user a d xs]

/-- Flipping the first record of user `a` to direction `d` trades that
record's counter contribution for a contribution to `d`'s counter. -/
theorem counts_updateFirst (a : Nat) (d : VoteDir) :
    ∀ (l : List VoteRecord) (ex : VoteRecord),
      l.find? (fun v => v.user == a) = some ex →
      upCount (updateFirst (fun v => v.user == a)
            (fun v => { v with voteType := d }) l) +
          (if ex.voteType = .up then 1 else 0) =
        upCount l + (if d = .up then 1 else 0) ∧
      downCount (updateFirst (fun v => v.user == a)
            (fun v => { v with voteType := d }) l) +
          (if ex.voteType = .down then 1 else 0) =
        downCount l + (if d = .down then 1 else 0)
  | [], ex, hf => by simp at hf
  | x :: xs, ex, hf => by
    by_cases hx : x.user = a
    · have hex : ex = x := by
        rw [List.find?_cons_of_pos _ (by simp [hx])] at hf
        exact (Option.some_injective _ hf).symm
      subst hex
      simp only [updateFirst]
      rw [if_pos (by simp [hx])]
      rw [upCount_cons, downCount_cons, upCount_cons, downCount_cons]
      cases hext : ex.voteType <;> cases d <;> simp <;> omega
    · have hf' : xs.find? (fun v => v.user == a) = some ex := by
        rwa [List.find?_cons_of_neg _ (by simp [hx])] at hf
      obtain ⟨ih1, ih2⟩ := counts_updateFirst a d xs ex hf'
      simp only [updateFirst]
      rw [if_neg (by simp [hx])]
      rw [upCount_cons, downCount_cons, upCount_cons, downCount_cons]
      constructor <;> omega

theorem applyVote_none_up (e : Votable) (a : Nat) (k : String)
    (hf : e.votedBy.find? (fun v => v.user == a) = none) :
    applyVote e a .up k =
      ({ e with votedBy := e.votedBy ++ [⟨a, .up⟩], upvotes := e.upvotes + 1 },
       if e.ownerId ≠ a then [⟨e.ownerId, k ++ "_upvote", a⟩] else []) := by
  by_cases h : e.ownerId = a <;> simp [applyVote, hf, h]

theorem applyVote_none_down (e : Votable) (a : Nat) (k : String)
    (hf : e.votedBy.find? (fun v => v.user == a) = none) :
    applyVote e a .down k =
      ({ e with votedBy := e.votedBy ++ [⟨a, .down⟩],
                downvotes := e.downvotes + 1 }, []) := by
  simp [applyVote, hf]

theorem applyVote_remove_up (e : Votable) (a : Nat) (k : String) (ex : VoteRecord)
    (hf : e.votedBy.find? (fun v => v.user == a) = some ex)
    (hex : ex.voteType = .up) :
    applyVote e a .up k =
      ({ e with votedBy := e.votedBy.filter (fun v => v.user != a),
                upvotes := e.upvotes - 1 }, []) := by
  simp [applyVote, hf, hex]

theorem applyVote_remove_down (e : Votable) (a : Nat) (k : String) (ex : VoteRecord)
    (hf : e.votedBy.find? (fun v => v.user == a) = some ex)
    (hex : ex.voteType = .down) :
    applyVote e a .down k =
      ({ e with votedBy := e.votedBy.filter (fun v => v.user != a),
                downvotes := e.downvotes - 1 }, []) := by
  simp [applyVote, hf, hex]

theorem applyVote_flip_up (e : Votable) (a : Nat) (k : String) (ex : VoteRecord)
    (hf : e.votedBy.find? (fun v => v.user == a) = some ex)
    (hex : ex.voteType = .down) :
    applyVote e a .up k =
      ({ e with votedBy := updateFirst (fun v => v.user == a)
                  (fun v => { v with voteType := .up }) e.votedBy,
                upvotes := e.upvotes + 1, downvotes := e.downvotes - 1 }, []) := by
  simp [applyVote, hf, hex]

theorem applyVote_flip_down (e : Votable) (a : Nat) (k : String) (ex : VoteRecord)
    (hf : e.votedBy.find? (fun v => v.user == a) = some ex)
    (hex : ex.voteType = .up) :
    applyVote e a .down k =
      ({ e with votedBy := updateFirst (fun v => v.user == a)
                  (fun v => { v with voteType := .down }) e.votedBy,
                upvotes := e.upvotes - 1, downvotes := e.downvotes + 1 }, []) := by
  simp [applyVote, hf, hex]

/-- C5: every `applyVote` operation (new vote, retraction, or flip) preserves
the invariant that `upvotes`/`downvotes` equal the number of up/down records
in `votedBy` and that each user has at most one vote record. -/
theorem applyVote_preserves_voteInvariant (e : Votable) (a : Nat) (d : VoteDir)
    (k : String) (h : voteInvariant e) : voteInvariant (applyVote e a d k).1 := by
  obtain ⟨hu, hd, hnd⟩ := h
  cases hf : e.votedBy.find? (fun v => v.user == a) with
  | none =>
    have ha : a ∉ e.votedBy.map VoteRecord.user := by
      intro hmem
      rw [List.find?_eq_none] at hf
      obtain ⟨v, hv, hveq⟩ := List.mem_map.mp hmem
      exact hf v hv (by simp [hveq])
    have hnd' : ∀ d' : VoteDir,
        ((e.votedBy ++ [VoteRecord.mk a d']).map VoteRecord.user).Nodup := by
      intro d'
      rw [List.map_append, List.nodup_append]
      exact ⟨hnd, List.nodup_singleton a, by simpa using ha⟩
    cases d
    · rw [applyVote_none_up e a k hf]
      refine ⟨?_, ?_, hnd' .up⟩
      · show e.upvotes + 1 = (upCount (e.votedBy ++ [VoteRecord.mk a .up]) : Int)
        rw [hu, upCount_append]
        have h1 : upCount [VoteRecord.mk a .up] = 1 := rfl
        rw [h1]; push_cast; ring
      · show e.downvotes = (downCount (e.votedBy ++ [VoteRecord.mk a .up]) : Int)
        rw [hd, downCount_append]
        have h1 : downCount [VoteRecord.mk a .up] = 0 := rfl
        rw [h1]; push_cast; ring
    · rw [applyVote_none_down e a k hf]
      refine ⟨?_, ?_, hnd' .down⟩
      · show e.upvotes = (upCount (e.votedBy ++ [VoteRecord.mk a .down]) : Int)
        rw [hu, upCount_append]
        have h1 : upCount [VoteRecord.mk a .down] = 0 := rfl
        rw [h1]; push_cast; ring
      · show e.downvotes + 1 = (downCount (e.votedBy ++ [VoteRecord.mk a .down]) : Int)
        rw [hd, downCount_append]
        have h1 : downCount [VoteRecord.mk a .down] = 1 := rfl
        rw [h1]; push_cast; ring
  | some ex =>
    have hnd'f : ((e.votedBy.filter (fun v => v.user != a)).map VoteRecord.user).Nodup :=
      List.Nodup.sublist (List.Sublist.map _ (List.filter_sublist _)) hnd
    cases hext : ex.voteType <;> cases d
    · -- up, up : retraction
      obtain ⟨h1, h2⟩ := counts_filter_erase a e.votedBy ex hf hnd
      rw [hext] at h1 h2
      simp at h1 h2
      rw [applyVote_remove_up e a k ex hf hext]
      exact ⟨by rw [hu]; push_cast; omega, by rw [hd]; push_cast; omega, hnd'f⟩
    · -- up, down : flip to down
      obtain ⟨h1, h2⟩ := counts_updateFirst a .down e.votedBy ex hf
      rw [hext] at h1 h2
      simp at h1 h2
      rw [applyVote_flip_down e a k ex hf hext]
      refine ⟨?_, ?_, (updateFirst_map_user a .down e.votedBy) ▸ hnd⟩
      · rw [hu]; push_cast; omega
      · rw [hd]; push_cast; omega
    · -- down, up : flip to up
      obtain ⟨h1, h2⟩ := counts_updateFirst a .up e.votedBy ex hf
      rw [hext] at h1 h2
      simp at h1 h2
      rw [applyVote_flip_up e a k ex hf hext]
      refine ⟨?_, ?_, (updateFirst_map_user a .up e.votedBy) ▸ hnd⟩
      · rw [hu]; push_cast; omega
      · rw [hd]; push_cast; omega
    · -- down, down : retraction
      obtain ⟨h1, h2⟩ := counts_filter_erase a e.votedBy ex hf hnd
      rw [hext] at h1 h2
      simp at h1 h2
      rw [applyVote_remove_down e a k ex hf hext]
      exact ⟨by rw [hu]; push_cast; omega, by rw [hd]; push_cast; omega, hnd'f⟩

/-- C5 witness: a flip (9 had an upvote, votes down) on an entity satisfying
the invariant. -/
theorem applyVote_preserves_voteInvariant_witness :
    voteInvariant (⟨5, 1, 0, [⟨9, .up⟩]⟩ : Votable) ∧
    voteInvariant (applyVote ⟨5, 1, 0, [⟨9, .up⟩]⟩ 9 .down "thread").1 :=
  ⟨by decide, applyVote_preserves_voteInvariant ⟨5, 1, 0, [⟨9, .up⟩]⟩ 9 .down
      "thread" (by decide)⟩

theorem find?_append_of_none {α : Type} {p : α → Bool} {l₁ : List α}
    (h : l₁.find? p = none) (l₂ : List α) :
    (l₁ ++ l₂).find? p = l₂.find? p := by
  induction l₁ with
  | nil => rfl
  | cons x xs ih =>
    have hx : p x = false := by
      cases hpx : p x
      · rfl
      · rw [List.find?_cons_of_pos _ hpx] at h
        cases h
    have h' : xs.find? p = none := by
      rwa [List.find?_cons_of_neg _ (by simp [hx])] at h
    rw [List.cons_append, List.find?_cons_of_neg _ (by simp [hx])]
    exact ih h' 

theorem updateFirst_append_of_none {α : Type} {p : α → Bool} {f : α → α}
    {l₁ : List α} (h : l₁.find? p = none) (l₂ : List α) :
    updateFirst p f (l₁ ++ l₂) = l₁ ++ updateFirst p f l₂ := by
  induction l₁ with
  | nil => rfl
  | cons x xs ih =>
    have hx : p x = false := by
      cases hpx : p x
      · rfl
      · rw [List.find?_cons_of_pos _ hpx] at h
        cases h
    have h' : xs.find? p = none := by
      rwa [List.find?_cons_of_neg _ (by simp [hx])] at h
    simp [updateFirst, hx, ih h']

/-- C6: for a user with no prior vote, upvoting twice in succession removes
the vote record again, restores both counters, and the second (retraction)
call creates no notification. -/
theorem applyVote_upvote_toggle (e : Votable) (a : Nat) (k : String)
    (hf : e.votedBy.find? (fun v => v.user == a) = none) :
    (applyVote (applyVote e a .up k).1 a .up k).1.votedBy = e.votedBy ∧
    (applyVote (applyVote e a .up k).1 a .up k).1.upvotes = e.upvotes ∧
    (applyVote (applyVote e a .up k).1 a .up k).1.downvotes = e.downvotes ∧
    (applyVote (applyVote e a .up k).1 a .up k).2 = [] := by
  have hstep1 := applyVote_none_up e a k hf
  rw [hstep1]
  have hf2 : ((e.votedBy ++ [VoteRecord.mk a .up]).find?
      (fun v => v.user == a)) = some (VoteRecord.mk a .up) := by
    rw [find?_append_of_none hf]
    simp [List.find?_cons]
  have hstep2 := applyVote_remove_up
      ({ e with votedBy := e.votedBy ++ [VoteRecord.mk a .up],
                upvotes := e.upvotes + 1 }) a k (VoteRecord.mk a .up) hf2 rfl
  rw [hstep2]
  have hfilter : (e.votedBy ++ [VoteRecord.mk a .up]).filter
      (fun v => v.user != a) = e.votedBy := by
    rw [List.filter_append]
    have h1 : e.votedBy.filter (fun v => v.user != a) = e.votedBy := by
      apply List.filter_eq_self.mpr
      intro v hv
      rw [List.find?_eq_none] at hf
      simpa using hf v hv
    have h2 : ([VoteRecord.mk a .up].filter (fun v => v.user != a)) = [] := by
      simp
    rw [h1, h2, List.append_nil]
  refine ⟨hfilter, by ring, rfl, rfl⟩

/-- C6 witness. -/
theorem applyVote_upvote_toggle_witness :
    ((⟨5, 2, 1, [⟨9, .up⟩, ⟨11, .down⟩, ⟨12, .up⟩]⟩ : Votable).votedBy.find?
        (fun v => v.user == 7) = none) ∧
    ((applyVote (applyVote ⟨5, 2, 1, [⟨9, .up⟩, ⟨11, .down⟩, ⟨12, .up⟩]⟩ 7 .up "thread").1
        7 .up "thread").1.votedBy = [⟨9, .up⟩, ⟨11, .down⟩, ⟨12, .up⟩] ∧
      (applyVote (applyVote ⟨5, 2, 1, [⟨9, .up⟩, ⟨11, .down⟩, ⟨12, .up⟩]⟩ 7 .up "thread").1
        7 .up "thread").1.upvotes = 2 ∧
      (applyVote (applyVote ⟨5, 2, 1, [⟨9, .up⟩, ⟨11, .down⟩, ⟨12, .up⟩]⟩ 7 .up "thread").1
        7 .up "thread").1.downvotes = 1 ∧
      (applyVote (applyVote ⟨5, 2, 1, [⟨9, .up⟩, ⟨11, .down⟩, ⟨12, .up⟩]⟩ 7 .up "thread").1
        7 .up "thread").2 = []) :=
  ⟨by decide, applyVote_upvote_toggle ⟨5, 2, 1, [⟨9, .up⟩, ⟨11, .down⟩, ⟨12, .up⟩]⟩ 7
      "thread" (by decide)⟩

/-- C7: for a user with no prior vote, upvoting then downvoting leaves exactly
one vote record for that user (direction down), restores `upvotes` to its
baseline, sets `downvotes` to baseline + 1, and the flip itself creates no
notification. -/
theorem applyVote_upvote_then_downvote (e : Votable) (a : Nat) (k : String)
    (hf : e.votedBy.find? (fun v => v.user == a) = none) :
    (applyVote (applyVote e a .up k).1 a .down k).1.votedBy.filter
        (fun v => v.user == a) = [VoteRecord.mk a .down] ∧
    (applyVote (applyVote e a .up k).1 a .down k).1.upvotes = e.upvotes ∧
    (applyVote (applyVote e a .up k).1 a .down k).1.downvotes = e.downvotes + 1 ∧
    (applyVote (applyVote e a .up k).1 a .down k).2 = [] := by
  have hstep1 := applyVote_none_up e a k hf
  rw [hstep1]
  have hf2 : ((e.votedBy ++ [VoteRecord.mk a .up]).find?
      (fun v => v.user == a)) = some (VoteRecord.mk a .up) := by
    rw [find?_append_of_none hf]
    simp [List.find?_cons]
  have hstep2 := applyVote_flip_down
      ({ e with votedBy := e.votedBy ++ [VoteRecord.mk a .up],
                upvotes := e.upvotes + 1 }) a k (VoteRecord.mk a .up) hf2 rfl
  rw [hstep2]
  have hupd : updateFirst (fun v => v.user == a)
      (fun v => { v with voteType := .down }) (e.votedBy ++ [VoteRecord.mk a .up]) =
      e.votedBy ++ [VoteRecord.mk a .down] := by
    rw [updateFirst_append_of_none hf]
    simp [updateFirst]
  refine ⟨?_, by ring, rfl, rfl⟩
  show (updateFirst (fun v => v.user == a) (fun v => { v with voteType := .down })
      (e.votedBy ++ [VoteRecord.mk a .up])).filter (fun v => v.user == a) =
      [VoteRecord.mk a .down]
  rw [hupd, List.filter_append]
  have h1 : e.votedBy.filter (fun v => v.user == a) = [] := by
    apply List.filter_eq_nil_iff.mpr
    intro v hv
    rw [List.find?_eq_none] at hf
    exact hf v hv
  rw [h1]
  simp

/-- C7 witness. -/
theorem applyVote_upvote_then_downvote_witness :
    ((⟨5, 2, 1, [⟨9, .up⟩, ⟨11, .down⟩, ⟨12, .up⟩]⟩ : Votable).votedBy.find?
        (fun v => v.user == 7) = none) ∧
    ((applyVote (applyVote ⟨5, 2, 1, [⟨9, .up⟩, ⟨11, .down⟩, ⟨12, .up⟩]⟩ 7 .up "thread").1
        7 .down "thread").1.votedBy.filter (fun v => v.user == 7) =
          [VoteRecord.mk 7 .down] ∧
      (applyVote (applyVote ⟨5, 2, 1, [⟨9, .up⟩, ⟨11, .down⟩, ⟨12, .up⟩]⟩ 7 .up "thread").1
        7 .down "thread").1.upvotes = 2 ∧
      (applyVote (applyVote ⟨5, 2, 1, [⟨9, .up⟩, ⟨11, .down⟩, ⟨12, .up⟩]⟩ 7 .up "thread").1
        7 .down "thread").1.downvotes = 2 ∧
      (applyVote (applyVote ⟨5, 2, 1, [⟨9, .up⟩, ⟨11, .down⟩, ⟨12, .up⟩]⟩ 7 .up "thread").1
        7 .down "thread").2 = []) :=
  ⟨by decide, applyVote_upvote_then_downvote ⟨5, 2, 1, [⟨9, .up⟩, ⟨11, .down⟩, ⟨12, .up⟩]⟩
      7 "thread" (by decide)⟩

example :
    (createComment ⟨[⟨1, 10, false, 0⟩], [⟨100, 1, 20, none, []⟩], [10, 20, 30],
        [], 101⟩ 30 1 (some 100) []).2.notifications =
      [⟨20, "comment_reply", 30⟩] := by
  decide

example :
    (createComment ⟨[⟨1, 10, false, 0⟩], [], [10, 30], [], 100⟩ 30 1 none
        []).2.notifications = [⟨10, "thread_reply", 30⟩] := by
  decide

example :
    (deleteComment ⟨[⟨1, 10, false, 3⟩],
        [⟨100, 1, 20, none, []⟩, ⟨101, 1, 30, some 100, []⟩,
         ⟨102, 1, 10, some 100, []⟩], [10, 20, 30], [], 103⟩ 20 100).2.threads =
      [⟨1, 10, false, 2⟩] := by
  decide

theorem filter_partition_length {α : Type} (p : α → Bool) (l : List α) :
    l.length = (l.filter p).length + (l.filter (fun x => !(p x))).length := by
  induction l with
  | nil => rfl
  | cons x xs ih =>
    by_cases hx : p x <;> simp [List.filter_cons, hx, ih] <;> omega

/-- Counting removed documents for `deleteComment`: when comment ids are
unique, the deleted comment is not its own parent, and a comment with id
`cid` exists, the store shrinks by (direct replies + 1) documents. -/
theorem delete_removed_count (cid : Nat) :
    ∀ l : List CommentRec, (l.map CommentRec.id).Nodup →
      (∀ x ∈ l, x.id = cid → ¬ x.parentId = some cid) →
      cid ∈ l.map CommentRec.id →
      ((l.filter (fun c => !(c.parentId == some cid))).filter
          (fun c => !(c.id == cid))).length +
        ((l.filter (fun c => c.parentId == some cid)).length + 1) = l.length
  | [], _, _, hmem => by simp at hmem
  | x :: xs, hnd, hpar, hmem => by
    by_cases hid : x.id = cid
    · have hxpar : ¬ x.parentId = some cid := hpar x (List.mem_cons_self x xs) hid
      have hxs : ∀ y ∈ xs, y.id ≠ cid := by
        have h1 : x.id ∉ xs.map CommentRec.id := by
          rw [List.map_cons] at hnd
          exact (List.nodup_cons.mp hnd).1
        intro y hy hyc
        exact h1 (by rw [hid, ← hyc]; exact List.mem_map_of_mem _ hy)
      have hfid : (xs.filter (fun c => !(c.parentId == some cid))).filter
          (fun c => !(c.id == cid)) = xs.filter (fun c => !(c.parentId == some cid)) := by
        apply List.filter_eq_self.mpr
        intro y hy
        simp only [Bool.not_eq_true', beq_eq_false_iff_ne]
        exact hxs y (List.mem_of_mem_filter hy)
      simp only [List.filter_cons]
      rw [if_pos (by simp [hxpar]), List.filter_cons, if_neg (by simp [hid]),
        if_neg (by simp [hxpar]), hfid]
      have := filter_partition_length (fun c => c.parentId == some cid) xs
      simp only [List.length_cons]
      omega
    · have hmem' : cid ∈ xs.map CommentRec.id := by
        rcases List.mem_cons.mp hmem with h | h
        · exact absurd h.symm hid
        · exact h
      have hnd' : (xs.map CommentRec.id).Nodup := by
        rw [List.map_cons] at hnd
        exact (List.nodup_cons.mp hnd).2
      have hpar' : ∀ x ∈ xs, x.id = cid → ¬ x.parentId = some cid :=
        fun y hy => hpar y (List.mem_cons_of_mem x hy)
      have ih := delete_removed_count cid xs hnd' hpar' hmem'
      by_cases hrep : x.parentId = some cid
      · simp only [List.filter_cons]
        rw [if_neg (by simp [hrep]), if_pos (by simp [hrep])]
        simp only [List.length_cons]
        omega
      · simp only [List.filter_cons]
        rw [if_pos (by simp [hrep]), List.filter_cons, if_pos (by simp [hid]),
          if_neg (by simp [hrep])]
        simp only [List.length_cons]
        omega

/-- C10: a successful `deleteComment` decrements the owning thread's cached
`commentsCount` by exactly 1 (the reply count is taken after the replies are
already deleted, so it is always zero), while the number of comment documents
actually removed is 1 plus the number of direct replies. -/
theorem deleteComment_decrements_by_one (st : ForumState) (a cid : Nat)
    (c : CommentRec)
    (hf : st.comments.find? (fun x => x.id == cid) = some c)
    (hown : c.userId = a)
    (hnd : (st.comments.map CommentRec.id).Nodup)
    (hnotself : c.parentId ≠ some cid) :
    (deleteComment st a cid).1 = .deleted ∧
    (∀ t ∈ st.threads, t.id = c.threadId →
      ({ t with commentsCount := t.commentsCount - 1 } : Thread) ∈
        (deleteComment st a cid).2.threads) ∧
    (deleteComment st a cid).2.comments.length +
        ((st.comments.filter (fun x => x.parentId == some cid)).length + 1) =
      st.comments.length := by
  have hcid : c.id = cid := by
    have := List.find?_some hf
    simpa using this
  have hzero : (st.comments.filter (fun x => !(x.parentId == some c.id))).filter
      (fun x => x.parentId == some c.id) = [] := by
    rw [List.filter_filter]
    apply List.filter_eq_nil_iff.mpr
    intro x hx
    simp
  constructor
  · simp [deleteComment, hf, hown]
  constructor
  · intro t ht htid
    simp only [deleteComment, hf, if_neg (show ¬ c.userId ≠ a by simp [hown])]
    rw [hzero]
    have : ({ t with commentsCount := t.commentsCount - 1 } : Thread) =
        (fun t => if t.id == c.threadId then
          { t with commentsCount := t.commentsCount - ((0 : Int) + 1) } else t) t := by
      simp [htid]
    rw [this]
    exact List.mem_map_of_mem _ ht
  · have hpar : ∀ x ∈ st.comments, x.id = cid → ¬ x.parentId = some cid := by
      intro x hx hxid
      have hxc : x = c := by
        apply List.inj_on_of_nodup_map hnd hx (List.mem_of_find?_eq_some hf)
        rw [hxid, hcid]
      rw [hxc]
      exact hnotself
    have hmem : cid ∈ st.comments.map CommentRec.id := by
      rw [← hcid]
      exact List.mem_map_of_mem _ (List.mem_of_find?_eq_some hf)
    have hcount := delete_removed_count cid st.comments hnd hpar hmem
    simp only [deleteComment, hf, if_neg (show ¬ c.userId ≠ a by simp [hown])]
    rw [hcid] at hzero ⊢
    exact hcount

/-- C10 witness: deleting comment 100 (two replies) removes three documents
but decrements `commentsCount` only from 3 to 2. -/
theorem deleteComment_decrements_by_one_witness :
    ((⟨[⟨1, 10, false, 3⟩],
        [⟨100, 1, 20, none, []⟩, ⟨101, 1, 30, some 100, []⟩,
         ⟨102, 1, 10, some 100, []⟩], [10, 20, 30], [], 103⟩ :
          ForumState).comments.find? (fun x => x.id == 100) =
        some ⟨100, 1, 20, none, []⟩) ∧
    ((deleteComment ⟨[⟨1, 10, false, 3⟩],
        [⟨100, 1, 20, none, []⟩, ⟨101, 1, 30, some 100, []⟩,
         ⟨102, 1, 10, some 100, []⟩], [10, 20, 30], [], 103⟩ 20 100).1 = .deleted ∧
      (∀ t ∈ ([⟨1, 10, false, 3⟩] : List Thread), t.id = 1 →
        ({ t with commentsCount := t.commentsCount - 1 } : Thread) ∈
          (deleteComment ⟨[⟨1, 10, false, 3⟩],
            [⟨100, 1, 20, none, []⟩, ⟨101, 1, 30, some 100, []⟩,
             ⟨102, 1, 10, some 100, []⟩], [10, 20, 30], [], 103⟩ 20 100).2.threads) ∧
      (deleteComment ⟨[⟨1, 10, false, 3⟩],
          [⟨100, 1, 20, none, []⟩, ⟨101, 1, 30, some 100, []⟩,
           ⟨102, 1, 10, some 100, []⟩], [10, 20, 30], [], 103⟩ 20 100).2.comments.length +
        ((([⟨100, 1, 20, none, []⟩, ⟨101, 1, 30, some 100, []⟩,
            ⟨102, 1, 10, some 100, []⟩] : List CommentRec).filter
              (fun x => x.parentId == some 100)).length + 1) = 3) :=
  ⟨by decide, deleteComment_decrements_by_one
      ⟨[⟨1, 10, false, 3⟩],
        [⟨100, 1, 20, none, []⟩, ⟨101, 1, 30, some 100, []⟩,
         ⟨102, 1, 10, some 100, []⟩], [10, 20, 30], [], 103⟩ 20 100
      ⟨100, 1, 20, none, []⟩ (by decide) rfl (by decide) (by decide)⟩

theorem replyNotifList_length_le_one (thread : Thread) (cs : List CommentRec)
    (a : Nat) (pid : Option Nat) :
    (replyNotifList thread cs a pid).length ≤ 1 := by
  unfold replyNotifList
  cases pid with
  | none => by_cases h : thread.createdBy ≠ a <;> simp [h]
  | some p =>
    cases hfc : cs.find? (fun c => c.id == p) with
    | none => simp [hfc]
    | some pc => by_cases h : pc.userId ≠ a <;> simp [hfc, h]

theorem replyNotifList_not_self (thread : Thread) (cs : List CommentRec)
    (a : Nat) (pid : Option Nat) :
    ∀ n ∈ replyNotifList thread cs a pid, n.fromUserId = a ∧ n.userId ≠ a := by
  unfold replyNotifList
  cases pid with
  | none => by_cases h : thread.createdBy ≠ a <;> simp [h]
  | some p =>
    cases hfc : cs.find? (fun c => c.id == p) with
    | none => simp [hfc]
    | some pc => by_cases h : pc.userId ≠ a <;> simp [hfc, h]

theorem replyNotifList_nested_type (thread : Thread) (cs : List CommentRec)
    (a p : Nat) :
    ∀ n ∈ replyNotifList thread cs a (some p), n.ntype = "comment_reply" := by
  unfold replyNotifList
  cases hfc : cs.find? (fun c => c.id == p) with
  | none => simp [hfc]
  | some pc => by_cases h : pc.userId ≠ a <;> simp [hfc, h]

theorem replyNotifList_top_type (thread : Thread) (cs : List CommentRec)
    (a : Nat) :
    ∀ n ∈ replyNotifList thread cs a none,
      n.ntype = "thread_reply" ∧ n.userId = thread.createdBy := by
  unfold replyNotifList
  by_cases h : thread.createdBy ≠ a <;> simp [h]

/-- Shape of a successful `createComment`: the inserted comment and the
notification delta (reply block then mention block). -/
theorem createComment_created_shape (st : ForumState) (a tid : Nat)
    (pid : Option Nat) (ms : List Nat) (c : CommentRec)
    (h : (createComment st a tid pid ms).1 = .created c) :
    ∃ thread, st.threads.find? (fun t => t.id == tid) = some thread ∧
      thread.isLocked = false ∧
      c = ⟨st.nextCommentId, tid, a, pid, ms⟩ ∧
      (createComment st a tid pid ms).2.notifications =
        st.notifications ++
          replyNotifList thread (st.comments ++ [c]) a pid ++
          mentionNotifs st.userIds a ms := by
  cases hft : st.threads.find? (fun t => t.id == tid) with
  | none => simp [createComment, hft] at h
  | some thread =>
    by_cases hlk : thread.isLocked
    · simp [createComment, hft, hlk] at h
    · by_cases hpc : (pid.isSome &&
          (st.comments.find? (fun x => some x.id == pid)).isNone) = true
      · simp only [createComment, hft, if_neg hlk, if_pos hpc] at h
        cases h
      · have hstep : createComment st a tid pid ms =
            (.created ⟨st.nextCommentId, tid, a, pid, ms⟩,
             { st with
                comments := st.comments ++ [⟨st.nextCommentId, tid, a, pid, ms⟩],
                threads := st.threads.map (fun t =>
                  if t.id == tid then
                    { t with commentsCount := t.commentsCount + 1 }
                  else t),
                notifications := st.notifications ++
                  replyNotifList thread
                    (st.comments ++ [⟨st.nextCommentId, tid, a, pid, ms⟩]) a pid ++
                  mentionNotifs st.userIds a ms,
                nextCommentId := st.nextCommentId + 1 }) := by
          simp only [createComment, hft, if_neg hlk]
          rw [if_neg (by simp [hpc])]
        have hc : c = ⟨st.nextCommentId, tid, a, pid, ms⟩ := by
          rw [hstep] at h
          simp only at h
          injection h with h'
          exact h'.symm
        subst hc
        exact ⟨thread, rfl, by simpa using hlk, rfl, by rw [hstep]⟩

/-- C2 counterexample: user 30 posts a nested comment under comment 100
(owned by user 20) on thread 1 (owned by user 10); the code notifies only
the parent-comment owner — the thread owner receives no notification, so a
nested comment does not notify both owners. -/
theorem createComment_nested_skips_thread_owner :
    (createComment ⟨[⟨1, 10, false, 0⟩], [⟨100, 1, 20, none, []⟩], [10, 20, 30],
        [], 101⟩ 30 1 (some 100) []).1 =
      .created ⟨101, 1, 30, some 100, []⟩ ∧
    (createComment ⟨[⟨1, 10, false, 0⟩], [⟨100, 1, 20, none, []⟩], [10, 20, 30],
        [], 101⟩ 30 1 (some 100) []).2.notifications =
      [⟨20, "comment_reply", 30⟩] := by
  constructor
  · decide
  · decide

/-- C2 (amended): every successful comment creation produces AT MOST ONE
reply notification: a top-level comment notifies only the thread owner
(type `thread_reply`), a nested comment notifies only the parent-comment
owner (type `comment_reply`) and never the thread owner as such. -/
theorem createComment_at_most_one_reply_notif (st : ForumState) (a tid : Nat)
    (pid : Option Nat) (ms : List Nat) (c : CommentRec)
    (h : (createComment st a tid pid ms).1 = .created c) :
    ∃ thread rN,
      st.threads.find? (fun t => t.id == tid) = some thread ∧
      (createComment st a tid pid ms).2.notifications =
        st.notifications ++ rN ++ mentionNotifs st.userIds a ms ∧
      rN.length ≤ 1 ∧
      (∀ n ∈ rN, n.fromUserId = a ∧ n.userId ≠ a) ∧
      (∀ p, pid = some p → ∀ n ∈ rN, n.ntype = "comment_reply") ∧
      (pid = none → ∀ n ∈ rN, n.ntype = "thread_reply" ∧
        n.userId = thread.createdBy) := by
  obtain ⟨thread, hft, hlk, hc, hnotifs⟩ :=
    createComment_created_shape st a tid pid ms c h
  refine ⟨thread, replyNotifList thread (st.comments ++ [c]) a pid, hft,
    hnotifs, replyNotifList_length_le_one _ _ _ _,
    replyNotifList_not_self _ _ _ _, ?_, ?_⟩
  · intro p hp
    rw [hp]
    exact replyNotifList_nested_type _ _ _ _
  · intro hp
    rw [hp]
    exact replyNotifList_top_type _ _ _

/-- C2 witness. -/
theorem createComment_at_most_one_reply_notif_witness :
    ((createComment ⟨[⟨1, 10, false, 0⟩], [⟨100, 1, 20, none, []⟩], [10, 20, 30],
        [], 101⟩ 30 1 (some 100) []).1 = .created ⟨101, 1, 30, some 100, []⟩) ∧
    (∃ thread rN,
      ([⟨1, 10, false, 0⟩] : List Thread).find? (fun t => t.id == 1) =
        some thread ∧
      (createComment ⟨[⟨1, 10, false, 0⟩], [⟨100, 1, 20, none, []⟩], [10, 20, 30],
          [], 101⟩ 30 1 (some 100) []).2.notifications =
        [] ++ rN ++ mentionNotifs [10, 20, 30] 30 [] ∧
      rN.length ≤ 1 ∧
      (∀ n ∈ rN, n.fromUserId = 30 ∧ n.userId ≠ 30) ∧
      (∀ p, (some 100 : Option Nat) = some p →
        ∀ n ∈ rN, n.ntype = "comment_reply") ∧
      ((some 100 : Option Nat) = none → ∀ n ∈ rN, n.ntype = "thread_reply" ∧
        n.userId = thread.createdBy)) :=
  ⟨by decide, createComment_at_most_one_reply_notif
      ⟨[⟨1, 10, false, 0⟩], [⟨100, 1, 20, none, []⟩], [10, 20, 30], [], 101⟩
      30 1 (some 100) [] ⟨101, 1, 30, some 100, []⟩ (by decide)⟩

theorem mentionNotifs_cons (userIds : List Nat) (a m : Nat) (ms : List Nat) :
    mentionNotifs userIds a (m :: ms) =
      (if (m != a && userIds.contains m) = true
        then [⟨m, "comment_mention", a⟩] else []) ++ mentionNotifs userIds a ms := by
  simp only [mentionNotifs, List.filter_cons]
  by_cases hq : (m != a && userIds.contains m) = true
  · rw [if_pos hq, if_pos hq]
    simp
  · rw [if_neg hq, if_neg hq]
    simp

/-- The mention loop emits one notification per OCCURRENCE of a mentioned id
that is distinct from the actor and exists; self-mentions and unknown ids
contribute nothing. -/
theorem mentionNotifs_count (userIds : List Nat) (a u : Nat) :
    ∀ ms : List Nat,
      ((mentionNotifs userIds a ms).filter (fun n => n.userId == u)).length =
        if u ≠ a ∧ u ∈ userIds then (ms.filter (fun m => m == u)).length else 0
  | [] => by simp [mentionNotifs]
  | m :: ms => by
    have ih := mentionNotifs_count userIds a u ms
    rw [mentionNotifs_cons, List.filter_append, List.length_append, ih]
    by_cases hmu : m = u
    · subst hmu
      by_cases hcond : m ≠ a ∧ m ∈ userIds
      · have hq : (m != a && userIds.contains m) = true := by
          simp [hcond.1, hcond.2]
        rw [if_pos hq, if_pos hcond, if_pos hcond, List.filter_cons,
          if_pos (by simp)]
        simp
        omega
      · have hq : (m != a && userIds.contains m) = false := by
          simp
          intro h1
          tauto
        rw [if_neg (by rw [hq]; exact Bool.false_ne_true), if_neg hcond,
          if_neg hcond]
        simp
    · have hfil : (m :: ms).filter (fun x => x == u) = ms.filter (fun x => x == u) := by
        rw [List.filter_cons, if_neg (by simp [hmu])]
      rw [hfil]
      by_cases hq : (m != a && userIds.contains m) = true
      · rw [if_pos hq]
        simp [List.filter_cons, hmu]
      · rw [if_neg hq]
        simp

/-- A successful `createComment` pins down the pre-write checks: the thread
exists, is unlocked, and the parent check passed. -/
theorem createComment_created_conditions (st : ForumState) (a tid : Nat)
    (pid : Option Nat) (ms : List Nat) (c : CommentRec)
    (h : (createComment st a tid pid ms).1 = .created c) :
    ∃ thread, st.threads.find? (fun t => t.id == tid) = some thread ∧
      thread.isLocked = false ∧
      (pid.isSome &&
        (st.comments.find? (fun x => some x.id == pid)).isNone) = false := by
  cases hft : st.threads.find? (fun t => t.id == tid) with
  | none => simp [createComment, hft] at h
  | some thread =>
    by_cases hlk : thread.isLocked
    · simp [createComment, hft, hlk] at h
    · by_cases hpc : (pid.isSome &&
          (st.comments.find? (fun x => some x.id == pid)).isNone) = true
      · simp only [createComment, hft, if_neg hlk, if_pos hpc] at h
        cases h
      · exact ⟨thread, rfl, by simpa using hlk, by simpa using hpc⟩

/-- Conversely, the pre-write checks alone decide success — the mention list
never makes `createComment` fail. -/
theorem createComment_created_of_conditions (st : ForumState) (a tid : Nat)
    (pid : Option Nat) (ms : List Nat) (thread : Thread)
    (hft : st.threads.find? (fun t => t.id == tid) = some thread)
    (hlk : thread.isLocked = false)
    (hpc : (pid.isSome &&
      (st.comments.find? (fun x => some x.id == pid)).isNone) = false) :
    (createComment st a tid pid ms).1 =
      .created ⟨st.nextCommentId, tid, a, pid, ms⟩ := by
  simp only [createComment, hft]
  rw [if_neg (by simp [hlk]), if_neg (by rw [hpc]; exact Bool.false_ne_true)]

/-- C3 counterexample: the mention list `[5, 5]` (user 5 exists, actor 10)
produces TWO identical `comment_mention` notifications — duplicate mention
ids are NOT deduplicated. -/
theorem createComment_duplicate_mentions_not_deduplicated :
    (createComment ⟨[⟨1, 10, false, 0⟩], [], [5, 10], [], 100⟩ 10 1 none
        [5, 5]).1 = .created ⟨100, 1, 10, none, [5, 5]⟩ ∧
    (createComment ⟨[⟨1, 10, false, 0⟩], [], [5, 10], [], 100⟩ 10 1 none
        [5, 5]).2.notifications =
      [⟨5, "comment_mention", 10⟩, ⟨5, "comment_mention", 10⟩] := by
  constructor
  · decide
  · decide

/-- C3 (amended): for every successful comment creation, one
`comment_mention` notification is emitted per OCCURRENCE (not per distinct
id) of a mentioned user id that is distinct from the actor and exists;
self-mentions and ids of non-existent users are silently skipped, and no
mention list can make the operation fail. -/
theorem createComment_mentions_per_occurrence (st : ForumState) (a tid u : Nat)
    (pid : Option Nat) (ms : List Nat) (c : CommentRec)
    (h : (createComment st a tid pid ms).1 = .created c) :
    (∀ ms' : List Nat, (createComment st a tid pid ms').1 =
        .created ⟨st.nextCommentId, tid, a, pid, ms'⟩) ∧
    (∃ rN, (createComment st a tid pid ms).2.notifications =
        st.notifications ++ rN ++ mentionNotifs st.userIds a ms) ∧
    ((mentionNotifs st.userIds a ms).filter (fun n => n.userId == u)).length =
      (if u ≠ a ∧ u ∈ st.userIds
        then (ms.filter (fun m => m == u)).length else 0) := by
  obtain ⟨thread, hft, hlk, hpc⟩ :=
    createComment_created_conditions st a tid pid ms c h
  obtain ⟨thread2, hft2, _, _, hnotifs⟩ :=
    createComment_created_shape st a tid pid ms c h
  exact ⟨fun ms' =>
      createComment_created_of_conditions st a tid pid ms' thread hft hlk hpc,
    ⟨replyNotifList thread2 (st.comments ++ [c]) a pid, hnotifs⟩,
    mentionNotifs_count st.userIds a u ms⟩

/-- C3 witness: actor 2 on thread 1 mentions `[5, 5, 2, 99]`; user 5 exists
(two notifications, one per occurrence), 2 is the actor (skipped), 99 does
not exist (skipped silently, no failure). -/
theorem createComment_mentions_per_occurrence_witness :
    ((createComment ⟨[⟨1, 7, false, 0⟩], [], [2, 5, 7], [], 100⟩ 2 1 none
        [5, 5, 2, 99]).1 = .created ⟨100, 1, 2, none, [5, 5, 2, 99]⟩) ∧
    ((∀ ms' : List Nat,
        (createComment ⟨[⟨1, 7, false, 0⟩], [], [2, 5, 7], [], 100⟩ 2 1 none
          ms').1 = .created ⟨100, 1, 2, none, ms'⟩) ∧
      (∃ rN, (createComment ⟨[⟨1, 7, false, 0⟩], [], [2, 5, 7], [], 100⟩ 2 1
          none [5, 5, 2, 99]).2.notifications =
        [] ++ rN ++ mentionNotifs [2, 5, 7] 2 [5, 5, 2, 99]) ∧
      ((mentionNotifs [2, 5, 7] 2 [5, 5, 2, 99]).filter
          (fun n => n.userId == 5)).length =
        (if (5 : Nat) ≠ 2 ∧ (5 : Nat) ∈ [2, 5, 7]
          then (([5, 5, 2, 99] : List Nat).filter (fun m => m == 5)).length
          else 0)) :=
  ⟨by decide, createComment_mentions_per_occurrence
      ⟨[⟨1, 7, false, 0⟩], [], [2, 5, 7], [], 100⟩ 2 1 5 none [5, 5, 2, 99]
      ⟨100, 1, 2, none, [5, 5, 2, 99]⟩ (by decide)⟩

example :
    (sendMessage ⟨[⟨2, true⟩], [], [], 50⟩ 1 2 "hi" false).2.notifications =
      [⟨2, "new_message", 1⟩] := by
  decide

example :
    (sendMessage ⟨[⟨2, false⟩], [], [], 50⟩ 1 2 "hi" false).1 =
      .receiverDisabled := by
  decide

example :
    deleteMessage ⟨9, 1, 2, "hi", false, [1]⟩ 2 =
      .deleted ⟨9, 1, 2, "hi", true, [1, 2]⟩ := by
  decide

example :
    deleteMessage ⟨9, 1, 2, "hi", false, [1]⟩ 1 =
      .deleted ⟨9, 1, 2, "hi", false, [1]⟩ := by
  decide

theorem both_mem_of_two (s r : Nat) (_hsr : s ≠ r) :
    ∀ l : List Nat, l.Nodup → (∀ x ∈ l, x = s ∨ x = r) → 2 ≤ l.length →
      s ∈ l ∧ r ∈ l
  | [], _, _, h => by simp at h
  | [x], _, _, h => by simp at h
  | x :: y :: rest, hnd, hsub, _ => by
    have hxy : x ≠ y := by
      have h1 := (List.nodup_cons.mp hnd).1
      exact fun he => h1 (he ▸ List.mem_cons_self y rest)
    rcases hsub x (by simp) with hx | hx <;> rcases hsub y (by simp) with hy | hy
    · exact absurd (hx.trans hy.symm) hxy
    · exact ⟨by simp [hx.symm], by simp [hy.symm]⟩
    · exact ⟨by simp [hy.symm], by simp [hx.symm]⟩
    · exact absurd (hx.trans hy.symm) hxy

theorem two_le_length_of_both (s r : Nat) (hsr : s ≠ r) (l : List Nat)
    (hs : s ∈ l) (hr : r ∈ l) : 2 ≤ l.length := by
  cases l with
  | nil => simp at hs
  | cons x rest =>
    rcases List.mem_cons.mp hs with h1 | h1
    · rcases List.mem_cons.mp hr with h2 | h2
      · exact absurd (h1.trans h2.symm) hsr
      · have hne := List.ne_nil_of_mem h2
        have := List.length_pos.mpr hne
        simp only [List.length_cons]
        omega
    · have hne := List.ne_nil_of_mem h1
      have := List.length_pos.mpr hne
      simp only [List.length_cons]
      omega

/-- C9: for a message between two distinct parties satisfying the invariant,
`deleteMessage` (a) preserves the invariant — so the message is inert exactly
when both sender and receiver have marked it deleted, and one party alone can
never make it inert — and (b) is a no-op for a party that has already marked
it (no second deletion mark).  The document is only mutated, never removed. -/
theorem deleteMessage_inert_iff_both (m : MessageRec) (u : Nat)
    (hsr : m.sender ≠ m.receiver) (hinv : msgInvariant m) :
    (∀ m', deleteMessage m u = .deleted m' →
      msgInvariant m' ∧ m'.sender = m.sender ∧ m'.receiver = m.receiver ∧
      (m'.isDeleted = true ↔
        (m.sender ∈ m'.deletedBy ∧ m.receiver ∈ m'.deletedBy))) ∧
    (u ∈ m.deletedBy → deleteMessage m u = .deleted m) := by
  obtain ⟨hnd, hsub, hiff⟩ := hinv
  constructor
  · intro m' hm'
    by_cases hauth : (m.sender != u && m.receiver != u) = true
    · simp [deleteMessage, hauth] at hm'
    · have hb : (m.sender != u && m.receiver != u) = false := by
        revert hauth
        cases (m.sender != u && m.receiver != u) <;> simp
      have hu : u = m.sender ∨ u = m.receiver := by
        rcases Bool.and_eq_false_iff.mp hb with h | h
        · left
          have h2 : ¬ m.sender ≠ u := by simpa using h
          rw [not_not] at h2
          exact h2.symm
        · right
          have h2 : ¬ m.receiver ≠ u := by simpa using h
          rw [not_not] at h2
          exact h2.symm
      by_cases hcont : m.deletedBy.contains u = true
      · simp only [deleteMessage, hb, Bool.false_eq_true, if_false, hcont,
          if_true] at hm'
        by_cases hlen : (m.deletedBy.length == 2) = true
        · rw [if_pos hlen] at hm'
          injection hm' with hm'
          subst hm'
          have hl2 : 2 ≤ m.deletedBy.length := by
            have h2 : m.deletedBy.length = 2 := by simpa using hlen
            omega
          have hboth := both_mem_of_two m.sender m.receiver hsr m.deletedBy
            hnd hsub hl2
          exact ⟨⟨hnd, hsub, by simpa using hboth⟩, rfl, rfl,
            by simpa using hboth⟩
        · rw [if_neg hlen] at hm'
          injection hm' with hm'
          subst hm'
          exact ⟨⟨hnd, hsub, hiff⟩, rfl, rfl, hiff⟩
      · have hcf : m.deletedBy.contains u = false := by
          revert hcont
          cases m.deletedBy.contains u <;> simp
        have hnotmem : u ∉ m.deletedBy := by simpa using hcf
        have hnd' : (m.deletedBy ++ [u]).Nodup := by
          rw [List.nodup_append]
          refine ⟨hnd, List.nodup_singleton u, ?_⟩
          intro x hx hxu
          rw [List.mem_singleton] at hxu
          exact hnotmem (hxu ▸ hx)
        have hsub' : ∀ x ∈ m.deletedBy ++ [u],
            x = m.sender ∨ x = m.receiver := by
          intro x hx
          rcases List.mem_append.mp hx with h | h
          · exact hsub x h
          · rw [List.mem_singleton] at h
            subst h
            exact hu
        simp only [deleteMessage, hb, Bool.false_eq_true, if_false, hcf,
          if_false] at hm'
        by_cases hlen : ((m.deletedBy ++ [u]).length == 2) = true
        · rw [if_pos hlen] at hm'
          injection hm' with hm'
          subst hm'
          have hl2 : 2 ≤ (m.deletedBy ++ [u]).length := by
            have h2 : (m.deletedBy ++ [u]).length = 2 := by simpa using hlen
            omega
          have hboth := both_mem_of_two m.sender m.receiver hsr
            (m.deletedBy ++ [u]) hnd' hsub' hl2
          exact ⟨⟨hnd', hsub', by simpa using hboth⟩, rfl, rfl,
            by simpa using hboth⟩
        · rw [if_neg hlen] at hm'
          injection hm' with hm'
          subst hm'
          have hiff' : m.isDeleted = true ↔
              (m.sender ∈ m.deletedBy ++ [u] ∧
               m.receiver ∈ m.deletedBy ++ [u]) := by
            constructor
            · intro h
              obtain ⟨h1, h2⟩ := hiff.mp h
              exact ⟨List.mem_append_left _ h1, List.mem_append_left _ h2⟩
            · rintro ⟨hs, hr⟩
              have hlneq : (m.deletedBy ++ [u]).length ≠ 2 := by
                intro h2
                exact hlen (by simpa using h2)
              cases hl : m.deletedBy with
              | nil =>
                rw [hl] at hs hr
                simp at hs hr
                exact absurd (hs.trans hr.symm) hsr
              | cons v rest =>
                have hge : 2 ≤ m.deletedBy.length := by
                  rw [List.length_append, List.length_singleton] at hlneq
                  rw [hl]
                  simp only [List.length_cons]
                  rw [hl] at hlneq
                  simp only [List.length_cons] at hlneq
                  omega
                have hboth := both_mem_of_two m.sender m.receiver hsr
                  m.deletedBy hnd hsub hge
                exact hiff.mpr hboth
          exact ⟨⟨hnd', hsub', hiff'⟩, rfl, rfl, hiff'⟩
  · intro hmem
    have hcont : m.deletedBy.contains u = true := by simpa using hmem
    have hb : (m.sender != u && m.receiver != u) = false := by
      rcases hsub u hmem with h | h <;> simp [h]
    simp only [deleteMessage, hb, Bool.false_eq_true, if_false, hcont, if_true]
    by_cases hlen : (m.deletedBy.length == 2) = true
    · rw [if_pos hlen]
      have hl2 : 2 ≤ m.deletedBy.length := by
        have h2 : m.deletedBy.length = 2 := by simpa using hlen
        omega
      have hboth := both_mem_of_two m.sender m.receiver hsr m.deletedBy
        hnd hsub hl2
      have hdel := hiff.mpr hboth
      cases m
      simp only at hdel
      rw [hdel]
    · rw [if_neg hlen]

/-- C9 witness: message 9 from user 1 to user 2, already marked by user 1,
deleted again by user 1. -/
theorem deleteMessage_inert_iff_both_witness :
    ((1 : Nat) ≠ 2 ∧ msgInvariant ⟨9, 1, 2, "hi", false, [1]⟩) ∧
    ((∀ m', deleteMessage ⟨9, 1, 2, "hi", false, [1]⟩ 1 = .deleted m' →
        msgInvariant m' ∧ m'.sender = 1 ∧ m'.receiver = 2 ∧
        (m'.isDeleted = true ↔
          ((1 : Nat) ∈ m'.deletedBy ∧ (2 : Nat) ∈ m'.deletedBy))) ∧
      ((1 : Nat) ∈ ([1] : List Nat) →
        deleteMessage ⟨9, 1, 2, "hi", false, [1]⟩ 1 =
          .deleted ⟨9, 1, 2, "hi", false, [1]⟩)) :=
  ⟨⟨by decide, by decide⟩,
    deleteMessage_inert_iff_both ⟨9, 1, 2, "hi", false, [1]⟩ 1 (by decide)
      (by decide)⟩

/-- C8: `sendMessage` fails fast before any write: a missing receiver takes
the NotFoundError path and a receiver with chat notifications disabled takes
the ForbiddenError path; in both cases the returned state is exactly the
input state — no Message and no Notification is persisted. -/
theorem sendMessage_fail_fast (st : MsgState) (s r : Nat) (content : String)
    (nf : Bool) :
    (st.users.find? (fun u => u.id == r) = none →
      sendMessage st s r content nf = (.receiverNotFound, st)) ∧
    (∀ receiver, st.users.find? (fun u => u.id == r) = some receiver →
      receiver.chatPref = false →
      sendMessage st s r content nf = (.receiverDisabled, st)) := by
  constructor
  · intro h
    simp [sendMessage, h]
  · intro receiver h hcp
    simp [sendMessage, h, hcp]

/-- C8 witness: user 3 does not exist; user 2 exists with chat disabled. -/
theorem sendMessage_fail_fast_witness :
    sendMessage ⟨[⟨2, false⟩], [], [], 0⟩ 1 3 "x" false =
      (.receiverNotFound, ⟨[⟨2, false⟩], [], [], 0⟩) ∧
    sendMessage ⟨[⟨2, false⟩], [], [], 0⟩ 1 2 "x" false =
      (.receiverDisabled, ⟨[⟨2, false⟩], [], [], 0⟩) :=
  ⟨(sendMessage_fail_fast ⟨[⟨2, false⟩], [], [], 0⟩ 1 3 "x" false).1
      (by decide),
   (sendMessage_fail_fast ⟨[⟨2, false⟩], [], [], 0⟩ 1 2 "x" false).2
      ⟨2, false⟩ (by decide) rfl⟩

/-- C4 counterexample: receiver 2 exists with chat enabled, the notification
step throws (`notifCreateFails = true`): the handler does NOT report success
(result is the propagated error, not `.created`), yet the message was already
persisted and no notification exists — the failure is not swallowed. -/
theorem sendMessage_notif_failure_not_swallowed :
    (sendMessage ⟨[⟨2, true⟩], [], [], 50⟩ 1 2 "hi" true).1 =
      .notifCreateThrew ∧
    (sendMessage ⟨[⟨2, true⟩], [], [], 50⟩ 1 2 "hi" true).2.messages =
      [⟨50, 1, 2, "hi", false, []⟩] ∧
    (sendMessage ⟨[⟨2, true⟩], [], [], 50⟩ 1 2 "hi" true).2.notifications =
      [] := by
  refine ⟨by decide, by decide, by decide⟩

/-- C4 (amended): when the notification step fails after the message write,
the error propagates (the pipeline result is `.notifCreateThrew`, not a
success), but the persisted message is NOT rolled back — it remains in the
store — and no notification is recorded. -/
theorem sendMessage_notif_failure_keeps_message (st : MsgState) (s r : Nat)
    (content : String) (receiver : UserRec)
    (hf : st.users.find? (fun u => u.id == r) = some receiver)
    (hcp : receiver.chatPref = true) :
    (sendMessage st s r content true).1 = .notifCreateThrew ∧
    (⟨st.nextMessageId, s, r, content, false, []⟩ : MessageRec) ∈
      (sendMessage st s r content true).2.messages ∧
    (sendMessage st s r content true).2.notifications = st.notifications := by
  refine ⟨?_, ?_, ?_⟩ <;> simp [sendMessage, hf, hcp]

/-- C4 witness. -/
theorem sendMessage_notif_failure_keeps_message_witness :
    (([⟨2, true⟩] : List UserRec).find? (fun u => u.id == 2) =
        some ⟨2, true⟩) ∧
    ((sendMessage ⟨[⟨2, true⟩], [], [], 50⟩ 1 2 "hi" true).1 =
        .notifCreateThrew ∧
      (⟨50, 1, 2, "hi", false, []⟩ : MessageRec) ∈
        (sendMessage ⟨[⟨2, true⟩], [], [], 50⟩ 1 2 "hi" true).2.messages ∧
      (sendMessage ⟨[⟨2, true⟩], [], [], 50⟩ 1 2 "hi" true).2.notifications =
        []) :=
  ⟨by decide, sendMessage_notif_failure_keeps_message ⟨[⟨2, true⟩], [], [], 50⟩
      1 2 "hi" ⟨2, true⟩ (by decide) rfl⟩

theorem applyVote_no_self_notif (e : Votable) (a : Nat) (d : VoteDir)
    (k : String) : ∀ n ∈ (applyVote e a d k).2, n.userId ≠ a := by
  cases hf : e.votedBy.find? (fun v => v.user == a) with
  | some ex =>
    cases hext : ex.voteType <;> cases d <;> simp [applyVote, hf, hext]
  | none =>
    cases d
    · rw [applyVote_none_up e a k hf]
      by_cases ho : e.ownerId ≠ a <;> simp [ho]
    · rw [applyVote_none_down e a k hf]
      simp

theorem mentionNotifs_no_self (userIds : List Nat) (a : Nat) (ms : List Nat) :
    ∀ n ∈ mentionNotifs userIds a ms, n.userId ≠ a := by
  intro n hn
  obtain ⟨m, hm, rfl⟩ := List.mem_map.mp hn
  have hfm := List.of_mem_filter hm
  rw [Bool.and_eq_true] at hfm
  simpa using hfm.1

/-- C1 counterexample: user 7 (chat enabled) sends a message to themself;
the code performs no self-check and records a `new_message` notification
whose recipient equals the acting user. -/
theorem sendMessage_self_creates_notification :
    (sendMessage ⟨[⟨7, true⟩], [], [], 0⟩ 7 7 "note" false).1 =
      .created ⟨0, 7, 7, "note", false, []⟩ ∧
    (sendMessage ⟨[⟨7, true⟩], [], [], 0⟩ 7 7 "note" false).2.notifications =
      [⟨7, "new_message", 7⟩] := by
  constructor
  · decide
  · decide

/-- C1 (amended): vote, comment-reply and mention events never notify the
acting user (`actor == recipient` is suppressed), but the message pipeline
has no such check: a user sending a message to themself does get a
`new_message` notification addressed to themself. -/
theorem self_action_notification_suppression (e : Votable) (a : Nat)
    (d : VoteDir) (k : String) (st : ForumState) (a2 tid : Nat)
    (pid : Option Nat) (ms : List Nat) (c : CommentRec) (mst : MsgState)
    (u : Nat) (content : String) (receiver : UserRec)
    (hcc : (createComment st a2 tid pid ms).1 = .created c)
    (hf : mst.users.find? (fun x => x.id == u) = some receiver)
    (hcp : receiver.chatPref = true) :
    (∀ n ∈ (applyVote e a d k).2, n.userId ≠ a) ∧
    (∀ n ∈ (createComment st a2 tid pid ms).2.notifications,
      n ∈ st.notifications ∨ n.userId ≠ a2) ∧
    ((sendMessage mst u u content false).2.notifications =
      mst.notifications ++ [⟨u, "new_message", u⟩]) := by
  obtain ⟨thread, _, _, _, hnotifs⟩ :=
    createComment_created_shape st a2 tid pid ms c hcc
  refine ⟨applyVote_no_self_notif e a d k, ?_, ?_⟩
  · intro n hn
    rw [hnotifs, List.append_assoc] at hn
    rcases List.mem_append.mp hn with h | h
    · exact Or.inl h
    · rcases List.mem_append.mp h with h2 | h2
      · exact Or.inr (replyNotifList_not_self thread _ a2 pid n h2).2
      · exact Or.inr (mentionNotifs_no_self st.userIds a2 ms n h2)
  · simp [sendMessage, hf, hcp]

/-- C1 witness. -/
theorem self_action_notification_suppression_witness :
    ((createComment ⟨[⟨1, 10, false, 0⟩], [], [10, 30], [], 100⟩ 30 1 none
        []).1 = .created ⟨100, 1, 30, none, []⟩ ∧
      ([⟨7, true⟩] : List UserRec).find? (fun x => x.id == 7) =
        some ⟨7, true⟩) ∧
    ((∀ n ∈ (applyVote ⟨5, 0, 0, []⟩ 5 .up "thread").2, n.userId ≠ 5) ∧
      (∀ n ∈ (createComment ⟨[⟨1, 10, false, 0⟩], [], [10, 30], [], 100⟩ 30 1
          none []).2.notifications, n ∈ ([] : List Notification) ∨
        n.userId ≠ 30) ∧
      ((sendMessage ⟨[⟨7, true⟩], [], [], 0⟩ 7 7 "note" false).2.notifications
        = [] ++ [⟨7, "new_message", 7⟩])) :=
  ⟨⟨by decide, by decide⟩,
    self_action_notification_suppression ⟨5, 0, 0, []⟩ 5 .up "thread"
      ⟨[⟨1, 10, false, 0⟩], [], [10, 30], [], 100⟩ 30 1 none []
      ⟨100, 1, 30, none, []⟩ ⟨[⟨7, true⟩], [], [], 0⟩ 7 "note" ⟨7, true⟩
      (by decide) (by decide) rfl⟩

end Forum
